import Mathlib

/-!
# goxml2json: conversion of web.config sections to JSON

A shallow embedding of `main.go`.  The program reads an XML configuration
file, optionally follows a `configSource` attribute to a second file, marks
the entries named on the command line as slot settings, and writes the
entries as indented JSON.

Layout of the development:

* the data model (the five structs of the source);
* the file system and the process (explicit state passing);
* the parts of the Go standard library the program calls (`os`, `ioutil`,
  `encoding/xml`, `encoding/json`, `flag`), modelled from their documented
  behaviour; the XML tokenizer and the flag parser are parameters;
* the functions of the source, under their own names;
* the theorems.
-/

set_option autoImplicit false
set_option linter.dupNamespace false

namespace Goxml2json

/-! ## Data model (main.go, lines 15 to 59) -/

/-- One `add` element of `appSettings`.  The `XMLName` field is left out: it
is tagged `json:"-"` and nothing reads it. -/
structure AppSetting where
  Key : String
  Value : String
  SlotSetting : Bool
deriving DecidableEq, Repr

/-- The `appSettings` section. -/
structure AppSettings where
  ConfigSource : String
  AppSettings : List AppSetting
deriving DecidableEq, Repr

/-- One `add` element of `connectionStrings`. -/
structure ConnectionString where
  Name : String
  ConnectionString : String
  ProviderName : String
  SlotSetting : Bool
deriving DecidableEq, Repr

/-- The `connectionStrings` section. -/
structure ConnectionStrings where
  ConfigSource : String
  ConnectionStrings : List ConnectionString
deriving DecidableEq, Repr

/-- The root document. -/
structure Configuration where
  AppSettings : Goxml2json.AppSettings
  ConnectionStrings : Goxml2json.ConnectionStrings
deriving DecidableEq, Repr

/-- The zero value of `Configuration`, as `var configuration Configuration`
declares it: empty strings and nil slices. -/
def Configuration.zero : Configuration :=
  { AppSettings := { ConfigSource := "", AppSettings := [] },
    ConnectionStrings := { ConfigSource := "", ConnectionStrings := [] } }

/-- The type `stringArrayFlag`, a slice of strings. -/
abbrev stringArrayFlag := List String

/-- The method `stringArrayFlag.Set` (lines 21 to 24): append the value. -/
def stringArrayFlag.Set (f : stringArrayFlag) (value : String) : stringArrayFlag :=
  f ++ [value]

/-! ## The annotation pass (lines 169 to 175 and 188 to 195) -/

/-- The inner loop of `ProcessAppSettings` on the entry at index `i`: for
every slot-setting name equal to the key, set the flag. -/
def annotateAppSetting (slotSettings : stringArrayFlag) (e : AppSetting) : AppSetting :=
  slotSettings.foldl
    (fun acc slotSetting => if acc.Key = slotSetting then { acc with SlotSetting := true } else acc) e

/-- The outer loop of `ProcessAppSettings`: every index is visited once, in
order, and the element is updated in place. -/
def annotateAppSettings (slotSettings : stringArrayFlag) (l : List AppSetting) : List AppSetting :=
  l.map (annotateAppSetting slotSettings)

/-- The body of the outer loop of `ProcessWebConnections` on one entry: the
provider is overwritten first, then the inner loop runs. -/
def annotateConnectionString (slotSettings : stringArrayFlag) (e : ConnectionString) :
    ConnectionString :=
  slotSettings.foldl
    (fun acc slotSetting => if acc.Name = slotSetting then { acc with SlotSetting := true } else acc)
    { e with ProviderName := "SQLServer" }

/-- The outer loop of `ProcessWebConnections`. -/
def annotateConnectionStrings (slotSettings : stringArrayFlag) (l : List ConnectionString) :
    List ConnectionString :=
  l.map (annotateConnectionString slotSettings)

/-! ## The file system and the process -/

/-- What a path names. -/
inductive FsNode where
  | file (data : String)
  | dir
deriving DecidableEq, Repr

/-- A file-system call the process made. -/
inductive FsOp where
  | opened (path : String)
  | created (path : String)
  | wrote (path : String) (data : String)
deriving DecidableEq, Repr

/-- The state outside the program.  `nodes` lists what exists, `locked` the
paths at which creating a file fails (missing parent directory, no
permission), `diskFull` makes every write fail, and `log` records the
file-system calls made so far, oldest first. -/
structure World where
  nodes : List (String × FsNode)
  locked : List String
  diskFull : Bool
  log : List FsOp
deriving DecidableEq, Repr

/-- The errors of the standard library that the program can meet. -/
inductive GoError where
  | openErr (path : String)
  | readErr
  | xmlErr
  | createErr (path : String)
  | writeErr (path : String)
deriving DecidableEq, Repr

/-- A computation of the process: it either returns to its caller or ends
the process with an exit code (`os.Exit`, `log.Fatal`). -/
inductive Exec (α : Type) where
  | ret (a : α) (w : World)
  | exit (code : Nat) (w : World)
deriving Repr

/-- The exit code of the process once `main` is over: returning from `main`
is exit code 0. -/
def Exec.exitCode {α : Type} : Exec α → Nat
  | .ret _ _ => 0
  | .exit code _ => code

/-- The state of the world when the process is over. -/
def Exec.world {α : Type} : Exec α → World
  | .ret _ w => w
  | .exit _ w => w

/-- Replace or add the node at a path. -/
def World.setNode (w : World) (path : String) (n : FsNode) : World :=
  { w with nodes := (path, n) :: w.nodes.filter (fun e => e.1 ≠ path) }

/-- Append a call to the log. -/
def World.record (w : World) (op : FsOp) : World :=
  { w with log := w.log ++ [op] }

namespace os

/-- The call `os.Open`: fails when nothing exists at the path. -/
def Open (name : String) (w : World) : Except GoError FsNode × World :=
  match w.nodes.lookup name with
  | none => (.error (.openErr name), w.record (.opened name))
  | some n => (.ok n, w.record (.opened name))

/-- The call `os.Create`: fails at a locked path and at a directory,
otherwise leaves an empty file at the path. -/
def Create (name : String) (w : World) : Except GoError Unit × World :=
  if name ∈ w.locked ∨ w.nodes.lookup name = some FsNode.dir then
    (.error (.createErr name), w.record (.created name))
  else
    (.ok (), (w.setNode name (.file "")).record (.created name))

end os

namespace ioutil

/-- The call `ioutil.ReadAll` on an opened node: a directory cannot be read. -/
def ReadAll : FsNode → Except GoError String
  | .file data => .ok data
  | .dir => .error .readErr

end ioutil

namespace bufio

/-- The calls `w.Write(jsonBytes)` and `w.Flush()` on a writer over the
created file: the bytes reach the file unless the write fails. -/
def WriteFlush (name : String) (data : String) (w : World) : Option GoError × World :=
  if w.diskFull then
    (some (.writeErr name), w.record (.wrote name data))
  else
    (none, (w.setNode name (.file data)).record (.wrote name data))

end bufio

/-! ## encoding/xml

The tokenizer is a parameter `decode`: it reads the first element of the
input and returns its tree, or nothing on a syntax error.  How a tree fills
a struct is fixed by the struct tags of the source and by the rules of
`xml.Unmarshal`: an attribute field takes the value of each attribute of
that name in turn, an element field of string type takes the character data
of the child, and a slice field is extended by one new element for every
child of that name. -/

/-- An attribute of a start element. -/
structure XmlAttr where
  name : String
  value : String
deriving Repr

/-- The tree of an element. -/
inductive XmlNode where
  | element (name : String) (attrs : List XmlAttr) (children : List XmlNode)
  | charData (text : String)

namespace xml

/-- The value of a string field tagged `name,attr`: every attribute of that
name is assigned in turn; without one the field keeps its value. -/
def attrField (attrs : List XmlAttr) (name : String) (old : String) : String :=
  attrs.foldl (fun acc a => if a.name = name then a.value else acc) old

/-- The character data directly inside an element. -/
def directText : List XmlNode → String
  | [] => ""
  | .charData t :: rest => t ++ directText rest
  | .element _ _ _ :: rest => directText rest

/-- Fill a new `AppSetting` from an `add` element: `key` and `value` are
attributes, `SlotSetting` is tagged `xml:"-"`. -/
def fillAppSetting (attrs : List XmlAttr) : AppSetting :=
  { Key := attrField attrs "key" "", Value := attrField attrs "value" "", SlotSetting := false }

/-- One child of an `appSettings` element: an `add` element extends the
slice, anything else is skipped. -/
def appSettingsChild (v : AppSettings) : XmlNode → AppSettings
  | .element name attrs _ =>
    if name = "add" then { v with AppSettings := v.AppSettings ++ [fillAppSetting attrs] } else v
  | .charData _ => v

/-- Fill an `AppSettings` value, which may already hold entries, from an
`appSettings` element. -/
def fillAppSettings (v : AppSettings) (attrs : List XmlAttr) (children : List XmlNode) :
    AppSettings :=
  children.foldl appSettingsChild
    { v with ConfigSource := attrField attrs "configSource" v.ConfigSource }

/-- One child of an `add` element of `connectionStrings`: the field
`ProviderName` is tagged `xml:"providerName"` without `attr`, so it is read
from a child element. -/
def connectionStringChild (v : ConnectionString) : XmlNode → ConnectionString
  | .element name _ children =>
    if name = "providerName" then { v with ProviderName := directText children } else v
  | .charData _ => v

/-- Fill a new `ConnectionString` from an `add` element. -/
def fillConnectionString (attrs : List XmlAttr) (children : List XmlNode) : ConnectionString :=
  children.foldl connectionStringChild
    { Name := attrField attrs "name" "",
      ConnectionString := attrField attrs "connectionString" "",
      ProviderName := "",
      SlotSetting := false }

/-- One child of a `connectionStrings` element. -/
def connectionStringsChild (v : ConnectionStrings) : XmlNode → ConnectionStrings
  | .element name attrs children =>
    if name = "add" then
      { v with ConnectionStrings := v.ConnectionStrings ++ [fillConnectionString attrs children] }
    else v
  | .charData _ => v

/-- Fill a `ConnectionStrings` value from a `connectionStrings` element. -/
def fillConnectionStrings (v : ConnectionStrings) (attrs : List XmlAttr)
    (children : List XmlNode) : ConnectionStrings :=
  children.foldl connectionStringsChild
    { v with ConfigSource := attrField attrs "configSource" v.ConfigSource }

/-- One child of the `configuration` element. -/
def configurationChild (v : Configuration) : XmlNode → Configuration
  | .element name attrs children =>
    if name = "appSettings" then
      { v with AppSettings := fillAppSettings v.AppSettings attrs children }
    else if name = "connectionStrings" then
      { v with ConnectionStrings := fillConnectionStrings v.ConnectionStrings attrs children }
    else v
  | .charData _ => v

/-- The call `xml.Unmarshal(data, &configuration)` with a `*Configuration`:
the root element has to be `configuration`. -/
def UnmarshalConfiguration (decode : String → Option XmlNode) (data : String)
    (v : Configuration) : Except GoError Configuration :=
  match decode data with
  | some (.element name _ children) =>
    if name = "configuration" then .ok (children.foldl configurationChild v) else .error .xmlErr
  | _ => .error .xmlErr

/-- The call `xml.Unmarshal(data, &configuration.AppSettings)`: the root
element has to be `appSettings`, and the value filled is the one that the
first parse left. -/
def UnmarshalAppSettings (decode : String → Option XmlNode) (data : String)
    (v : AppSettings) : Except GoError AppSettings :=
  match decode data with
  | some (.element name attrs children) =>
    if name = "appSettings" then .ok (fillAppSettings v attrs children) else .error .xmlErr
  | _ => .error .xmlErr

/-- The call `xml.Unmarshal(data, &configuration.ConnectionStrings)`. -/
def UnmarshalConnectionStrings (decode : String → Option XmlNode) (data : String)
    (v : ConnectionStrings) : Except GoError ConnectionStrings :=
  match decode data with
  | some (.element name attrs children) =>
    if name = "connectionStrings" then .ok (fillConnectionStrings v attrs children)
    else .error .xmlErr
  | _ => .error .xmlErr

end xml

/-- The builtin `len` on a string: its length in bytes. -/
def len (s : String) : Nat := s.utf8ByteSize

/-! ## encoding/json

`json.MarshalIndent(data, "", "  ")` on a slice of structs.  The keys and
their order come from the `json` tags of the source.  A nil slice is encoded
as `null`; the slices of this program are nil exactly when they are empty,
because `xml.Unmarshal` only ever extends them. -/

namespace json

/-- A hexadecimal digit, lower case. -/
def hexDigit (n : Nat) : Char :=
  Char.ofNat (if n < 10 then 48 + n else 87 + n)

/-- The encoding of one character inside a string literal, with the HTML
escaping that `Marshal` applies.  Backspace and form feed are written `\b`
and `\f`, as the package does since Go 1.22 (earlier releases write
`\u0008` and `\u000c`); the other control characters apart from newline,
carriage return and tab are written `\u00XX`. -/
def escapeChar (c : Char) : List Char :=
  if c = Char.ofNat 34 ∨ c = Char.ofNat 92 then [Char.ofNat 92, c]
  else if c = Char.ofNat 8 then [Char.ofNat 92, 'b']
  else if c = Char.ofNat 12 then [Char.ofNat 92, 'f']
  else if c = Char.ofNat 10 then [Char.ofNat 92, 'n']
  else if c = Char.ofNat 13 then [Char.ofNat 92, 'r']
  else if c = Char.ofNat 9 then [Char.ofNat 92, 't']
  else if c.toNat < 32 ∨ c = '<' ∨ c = '>' ∨ c = '&' then
    [Char.ofNat 92, 'u', '0', '0', hexDigit (c.toNat / 16), hexDigit (c.toNat % 16)]
  else if c.toNat = 8232 ∨ c.toNat = 8233 then
    [Char.ofNat 92, 'u', '2', '0', '2', hexDigit (c.toNat % 16)]
  else [c]

/-- The encoding of a string value. -/
def quote (s : String) : String :=
  String.mk ([Char.ofNat 34] ++ (s.data.map escapeChar).flatten ++ [Char.ofNat 34])

/-- The encoding of a boolean value. -/
def bool (b : Bool) : String := if b then "true" else "false"

/-- The indented object of an `AppSetting`, at nesting level one. -/
def objectAppSetting (e : AppSetting) : String :=
  "  \x7b\n" ++
  "    \"name\": " ++ quote e.Key ++ ",\n" ++
  "    \"value\": " ++ quote e.Value ++ ",\n" ++
  "    \"slotSetting\": " ++ bool e.SlotSetting ++ "\n" ++
  "  \x7d"

/-- The indented object of a `ConnectionString`, at nesting level one. -/
def objectConnectionString (e : ConnectionString) : String :=
  "  \x7b\n" ++
  "    \"name\": " ++ quote e.Name ++ ",\n" ++
  "    \"value\": " ++ quote e.ConnectionString ++ ",\n" ++
  "    \"type\": " ++ quote e.ProviderName ++ ",\n" ++
  "    \"slotSetting\": " ++ bool e.SlotSetting ++ "\n" ++
  "  \x7d"

/-- The indented array of the given objects; the nil slice is `null`. -/
def indentArray : List String → String
  | [] => "null"
  | objects => "[\n" ++ ",\n".intercalate objects ++ "\n]"

/-- The call `json.MarshalIndent(data, "", "  ")` on a `[]AppSetting`.  It
cannot fail on this type. -/
def MarshalIndentAppSettings (data : List AppSetting) : Except GoError String :=
  .ok (indentArray (data.map objectAppSetting))

/-- The call `json.MarshalIndent(data, "", "  ")` on a `[]ConnectionString`. -/
def MarshalIndentConnectionStrings (data : List ConnectionString) : Except GoError String :=
  .ok (indentArray (data.map objectConnectionString))

end json

/-! ## flag

`FlagSet.Parse` with `flag.ExitOnError` either returns with the variables
set or ends the process.  `main` takes it as a parameter; `flag.Parse` below
follows the command-line syntax the package documents, for the three flags
that both subcommands register. -/

/-- The variables the flags of one subcommand are bound to: the input and
output file names and the slot-setting list. -/
structure Flags where
  i : String
  o : String
  slotSetting : stringArrayFlag
deriving DecidableEq, Repr

namespace flag

/-- Split `name=value` at the first `=` after the first character. -/
def splitValue : List Char → List Char × Option (List Char)
  | [] => ([], none)
  | c :: rest =>
    (c :: rest.takeWhile (fun x => x ≠ '='),
     if '=' ∈ rest then some (rest.dropWhile (fun x => x ≠ '=')).tail else none)

/-- Assign a value to the flag of the given name, through `Value.Set`;
nothing when the flag is not defined. -/
def assign (f : Flags) (name : String) (value : String) : Option Flags :=
  if name = "i" then some { f with i := value }
  else if name = "o" then some { f with o := value }
  else if name = "slotSetting" then
    some { f with slotSetting := stringArrayFlag.Set f.slotSetting value }
  else none

/-- The loop of `FlagSet.Parse`, one flag per step, with the process ended
as `flag.ExitOnError` asks: exit code 2 for an error.  For `-h` and `-help`
the exit code is the parameter `helpExit`: 0 since Go 1.15, 2 before.
Parsing stops at `--` and at the first argument that is no flag. -/
def parseLoop (helpExit : Nat) : Nat → List String → Flags → Except Nat Flags
  | 0, _, f => .ok f
  | _ + 1, [], f => .ok f
  | fuel + 1, s :: args, f =>
    match s.data with
    | '-' :: c :: more =>
      if c = '-' ∧ more = [] then .ok f
      else
        let name := if c = '-' then more else c :: more
        match name with
        | [] => .error 2
        | n0 :: _ =>
          if n0 = '-' ∨ n0 = '=' then .error 2
          else
            let (nm, inlineValue) := splitValue name
            match assign f (String.mk nm) "" with
            | none =>
              if String.mk nm = "help" ∨ String.mk nm = "h" then .error helpExit else .error 2
            | some _ =>
              match inlineValue, args with
              | some v, _ =>
                match assign f (String.mk nm) (String.mk v) with
                | some g => parseLoop helpExit fuel args g
                | none => .error 2
              | none, v :: args2 =>
                match assign f (String.mk nm) v with
                | some g => parseLoop helpExit fuel args2 g
                | none => .error 2
              | none, [] => .error 2
    | _ => .ok f

/-- The call `FlagSet.Parse(arguments)` on a flag set with the flags `i`,
`o` and `slotSetting`, all variables at their defaults. -/
def Parse (helpExit : Nat) (arguments : List String) : Except Nat Flags :=
  parseLoop helpExit (arguments.length + 1) arguments { i := "", o := "", slotSetting := [] }

end flag

/-! ## The functions of the source -/

/-- The function `NewConfigurationFromFile` (lines 100 to 159).  The errors
of the first file and of the external `appSettings` file are returned; the
errors of the external `connectionStrings` file end the process through
`log.Fatal`, exit code 1. -/
def NewConfigurationFromFile (decode : String → Option XmlNode) (fileName : String)
    (w : World) : Exec (Except GoError Configuration) :=
  match os.Open fileName w with
  | (.error err, w) => .ret (.error err) w
  | (.ok input, w) =>
  match ioutil.ReadAll input with
  | .error err => .ret (.error err) w
  | .ok byteValue =>
  match xml.UnmarshalConfiguration decode byteValue Configuration.zero with
  | .error err => .ret (.error err) w
  | .ok configuration =>
  let appSettings := configuration.AppSettings
  let step : Except GoError Configuration × World :=
    if len appSettings.ConfigSource > 0 then
      match os.Open appSettings.ConfigSource w with
      | (.error err, w) => (.error err, w)
      | (.ok input, w) =>
      match ioutil.ReadAll input with
      | .error err => (.error err, w)
      | .ok byteValue =>
      match xml.UnmarshalAppSettings decode byteValue configuration.AppSettings with
      | .error err => (.error err, w)
      | .ok loaded => (.ok { configuration with AppSettings := loaded }, w)
    else (.ok configuration, w)
  match step with
  | (.error err, w) => .ret (.error err) w
  | (.ok configuration, w) =>
  let connectionStrings := configuration.ConnectionStrings
  if len connectionStrings.ConfigSource > 0 then
    match os.Open connectionStrings.ConfigSource w with
    | (.error _, w) => .exit 1 w
    | (.ok input, w) =>
    match ioutil.ReadAll input with
    | .error _ => .exit 1 w
    | .ok byteValue =>
    match xml.UnmarshalConnectionStrings decode byteValue configuration.ConnectionStrings with
    | .error _ => .exit 1 w
    | .ok loaded => .ret (.ok { configuration with ConnectionStrings := loaded }) w
  else .ret (.ok configuration) w

/-- The function `SerializeToJson` (lines 200 to 217).  The errors of
`MarshalIndent` and of `os.Create` are returned; the results of `w.Write`
and `w.Flush` are not looked at. -/
def SerializeToJson {α : Type} (marshalIndent : α → Except GoError String) (data : α)
    (outputFileName : String) (w : World) : Option GoError × World :=
  match marshalIndent data with
  | .error err => (some err, w)
  | .ok jsonBytes =>
  match os.Create outputFileName w with
  | (.error err, w) => (some err, w)
  | (.ok _, w) =>
  let (_, w) := bufio.WriteFlush outputFileName jsonBytes w
  (none, w)

/-- The function `ProcessAppSettings` (lines 161 to 178); the global
`appSettingsSlotSettings` is the first argument.  The result of
`SerializeToJson` is dropped. -/
def ProcessAppSettings (decode : String → Option XmlNode)
    (appSettingsSlotSettings : stringArrayFlag) (inputFileName outputFileName : String)
    (w : World) : Exec Unit :=
  match NewConfigurationFromFile decode inputFileName w with
  | .exit code w => .exit code w
  | .ret (.error _) w => .exit 1 w
  | .ret (.ok config) w =>
    let appSettings := config.AppSettings
    let annotated := annotateAppSettings appSettingsSlotSettings appSettings.AppSettings
    let (_, w) := SerializeToJson json.MarshalIndentAppSettings annotated outputFileName w
    .ret () w

/-- The function `ProcessWebConnections` (lines 180 to 198); the global
`connectionStringsSlotSettings` is the first argument. -/
def ProcessWebConnections (decode : String → Option XmlNode)
    (connectionStringsSlotSettings : stringArrayFlag) (inputFileName outputFileName : String)
    (w : World) : Exec Unit :=
  match NewConfigurationFromFile decode inputFileName w with
  | .exit code w => .exit code w
  | .ret (.error _) w => .exit 1 w
  | .ret (.ok configuration) w =>
    let connectionStrings := configuration.ConnectionStrings
    let annotated :=
      annotateConnectionStrings connectionStringsSlotSettings connectionStrings.ConnectionStrings
    let (_, w) := SerializeToJson json.MarshalIndentConnectionStrings annotated outputFileName w
    .ret () w

/-- The function `main` (lines 61 to 98) on the argument vector `os.Args`.
The messages it prints are not modelled. -/
def main (parse : List String → Except Nat Flags) (decode : String → Option XmlNode)
    (args : List String) (w : World) : Exec Unit :=
  if args.length < 2 then .exit 1 w
  else
    match args with
    | _ :: sub :: rest =>
      if sub = "appSettings" then
        match parse rest with
        | .error code => .exit code w
        | .ok f =>
          if f.i = "" ∨ f.o = "" then .exit 2 w
          else ProcessAppSettings decode f.slotSetting f.i f.o w
      else if sub = "connectionStrings" then
        match parse rest with
        | .error code => .exit code w
        | .ok f =>
          if f.i = "" ∨ f.o = "" then .exit 2 w
          else ProcessWebConnections decode f.slotSetting f.i f.o w
      else .exit 1 w
    | _ => .exit 1 w

/-! ## Predicates and sample data used in the statements -/

/-- No entry of the section is marked as a slot setting. -/
def unmarkedApp (v : AppSettings) : Prop :=
  ∀ e ∈ v.AppSettings, e.SlotSetting = false

/-- No entry of the section is marked as a slot setting. -/
def unmarkedConn (v : ConnectionStrings) : Prop :=
  ∀ e ∈ v.ConnectionStrings, e.SlotSetting = false

/-- The entries that the `add` children of an `appSettings` element stand
for, in document order. -/
def xml.addAppSettings : List XmlNode → List AppSetting
  | [] => []
  | .element name attrs _ :: rest =>
    if name = "add" then xml.fillAppSetting attrs :: xml.addAppSettings rest
    else xml.addAppSettings rest
  | .charData _ :: rest => xml.addAppSettings rest

/-- The entries that the `add` children of a `connectionStrings` element
stand for, in document order. -/
def xml.addConnectionStrings : List XmlNode → List ConnectionString
  | [] => []
  | .element name attrs children :: rest =>
    if name = "add" then xml.fillConnectionString attrs children :: xml.addConnectionStrings rest
    else xml.addConnectionStrings rest
  | .charData _ :: rest => xml.addConnectionStrings rest

/-- A tokenizer that knows finitely many documents and rejects the rest. -/
def tableDecode (table : List (String × XmlNode)) (data : String) : Option XmlNode :=
  table.lookup data

/-- The document of the end-to-end example of the specification. -/
def sampleMain : String :=
  "<configuration><appSettings><add key=\"A\" value=\"1\"/><add key=\"B\" value=\"2\"/></appSettings></configuration>"

/-- The tree of `sampleMain`. -/
def sampleMainTree : XmlNode :=
  .element "configuration" []
    [.element "appSettings" []
      [.element "add" [⟨"key", "A"⟩, ⟨"value", "1"⟩] [],
       .element "add" [⟨"key", "B"⟩, ⟨"value", "2"⟩] []]]

/-- A document with one connection string. -/
def sampleConn : String :=
  "<configuration><connectionStrings><add name=\"Db\" connectionString=\"Server=x\" providerName=\"System.Data.SqlClient\"/></connectionStrings></configuration>"

/-- The tree of `sampleConn`. -/
def sampleConnTree : XmlNode :=
  .element "configuration" []
    [.element "connectionStrings" []
      [.element "add"
        [⟨"name", "Db"⟩, ⟨"connectionString", "Server=x"⟩,
         ⟨"providerName", "System.Data.SqlClient"⟩] []]]

/-- A document whose `appSettings` section names an external file and also
has an inline entry. -/
def sampleSourced : String :=
  "<configuration><appSettings configSource=\"ext.config\"><add key=\"X\" value=\"0\"/></appSettings></configuration>"

/-- The tree of `sampleSourced`. -/
def sampleSourcedTree : XmlNode :=
  .element "configuration" []
    [.element "appSettings" [⟨"configSource", "ext.config"⟩]
      [.element "add" [⟨"key", "X"⟩, ⟨"value", "0"⟩] []]]

/-- The external section file. -/
def sampleExt : String :=
  "<appSettings><add key=\"A\" value=\"1\"/></appSettings>"

/-- The tree of `sampleExt`. -/
def sampleExtTree : XmlNode :=
  .element "appSettings" [] [.element "add" [⟨"key", "A"⟩, ⟨"value", "1"⟩] []]

/-- A document whose `appSettings` section has no `add` child. -/
def sampleEmpty : String :=
  "<configuration><appSettings></appSettings></configuration>"

/-- The tree of `sampleEmpty`. -/
def sampleEmptyTree : XmlNode :=
  .element "configuration" [] [.element "appSettings" [] []]

/-- A document with an unclosed tag. -/
def sampleUnclosed : String :=
  "<configuration><appSettings>"

/-- The tokenizer on the sample documents; `sampleUnclosed` is rejected. -/
def sampleDecode : String → Option XmlNode :=
  tableDecode
    [(sampleMain, sampleMainTree), (sampleConn, sampleConnTree),
     (sampleSourced, sampleSourcedTree), (sampleExt, sampleExtTree),
     (sampleEmpty, sampleEmptyTree)]

/-- A world with the sample files and a path at which no file can be
created. -/
def sampleWorld : World :=
  { nodes :=
      [("web.config", .file sampleMain), ("conn.config", .file sampleConn),
       ("sourced.config", .file sampleSourced), ("ext.config", .file sampleExt),
       ("empty.config", .file sampleEmpty), ("broken.config", .file sampleUnclosed),
       ("out.json", .file "old")],
    locked := ["missing/out.json"],
    diskFull := false,
    log := [] }

/-! ## Well-formed documents and help flags, for the statements

`xml.Unmarshal` returns once it has read the end tag of the first element;
what follows in the input is never read.  A tokenizer with the text it
leaves unread makes that visible. -/

/-- The text after the end `-->` of a comment, if the comment ends. -/
def xml.afterComment : List Char → Option (List Char)
  | [] => none
  | c :: rest =>
    if c = '-' ∧ rest.take 2 = ['-', '>'] then some (rest.drop 2) else xml.afterComment rest

/-- The text after the end `?>` of a processing instruction, if it ends. -/
def xml.afterProcInst : List Char → Option (List Char)
  | [] => none
  | c :: rest =>
    if c = '?' ∧ rest.take 1 = ['>'] then some (rest.drop 1) else xml.afterProcInst rest

/-- What may follow the root element of a well-formed document: white
space, comments and processing instructions, nothing else. -/
def xml.isMisc : Nat → List Char → Bool
  | _, [] => true
  | 0, _ :: _ => false
  | fuel + 1, c :: rest =>
    if c = ' ' ∨ c = Char.ofNat 9 ∨ c = Char.ofNat 10 ∨ c = Char.ofNat 13 then
      xml.isMisc fuel rest
    else if c = '<' ∧ rest.take 3 = ['!', '-', '-'] then
      match xml.afterComment (rest.drop 3) with
      | some more => xml.isMisc fuel more
      | none => false
    else if c = '<' ∧ rest.take 1 = ['?'] then
      match xml.afterProcInst (rest.drop 1) with
      | some more => xml.isMisc fuel more
      | none => false
    else false

/-- A document is well formed when the tokenizer `scan` reads its first
element without a syntax error and the text it leaves unread is
miscellaneous. -/
def xml.wellFormed (scan : String → Option (XmlNode × String)) (data : String) : Bool :=
  match scan data with
  | some (_, unread) => xml.isMisc unread.length unread.data
  | none => false

/-- The decoder that `xml.Unmarshal` runs on top of the tokenizer `scan`: the
tree of the first element, whatever is left unread. -/
def xml.firstElement (scan : String → Option (XmlNode × String)) (data : String) :
    Option XmlNode :=
  (scan data).map Prod.fst

/-- The example document followed by an unclosed tag. -/
def sampleTrailing : String :=
  "<configuration><appSettings><add key=\"A\" value=\"1\"/><add key=\"B\" value=\"2\"/></appSettings></configuration><oops"

/-- The tokenizer on `sampleMain` and on `sampleTrailing`: both have the
tree of `sampleMain` as first element, and the second leaves `<oops`
unread; `sampleUnclosed` is rejected. -/
def sampleScan (data : String) : Option (XmlNode × String) :=
  [(sampleMain, (sampleMainTree, "")), (sampleTrailing, (sampleMainTree, "<oops"))].lookup data

/-- A world with the file `trailing.config` and an older output file. -/
def trailingWorld : World :=
  { nodes := [("trailing.config", .file sampleTrailing), ("out.json", .file "old")],
    locked := [],
    diskFull := false,
    log := [] }

/-- The name of the flag that an argument is read as by `FlagSet.Parse`,
without the leading minus signs and without `=value`; nothing when the
argument is no flag. -/
def flag.flagName (s : String) : Option String :=
  match s.data with
  | '-' :: c :: more =>
    if c = '-' ∧ more = [] then none
    else some (String.mk (flag.splitValue (if c = '-' then more else c :: more)).1)
  | _ => none

/-- The argument asks for help: `-h`, `-help`, `--h`, `--help`, also with
`=value`. -/
def flag.isHelp (s : String) : Bool :=
  flag.flagName s = some "h" ∨ flag.flagName s = some "help"

/-! ## The annotation pass: what it computes -/

theorem annotateAppSetting_eq (slotSettings : stringArrayFlag) (e : AppSetting) :
    annotateAppSetting slotSettings e =
      { e with SlotSetting := e.SlotSetting || decide (e.Key ∈ slotSettings) } := by
  unfold annotateAppSetting
  induction slotSettings generalizing e with
  | nil => simp
  | cons s t ih =>
    rw [List.foldl_cons]
    by_cases h : e.Key = s
    · rw [if_pos h, ih]
      simp [h]
    · rw [if_neg h, ih]
      have h2 : ¬ s = e.Key := fun h3 => h h3.symm
      simp [h, h2]

/-- The inner loop of `ProcessWebConnections` in closed form. -/
theorem annotateConnectionString_fold (slotSettings : stringArrayFlag) (e : ConnectionString) :
    slotSettings.foldl
      (fun acc slotSetting =>
        if acc.Name = slotSetting then { acc with SlotSetting := true } else acc) e =
      { e with SlotSetting := e.SlotSetting || decide (e.Name ∈ slotSettings) } := by
  induction slotSettings generalizing e with
  | nil => simp
  | cons s t ih =>
    rw [List.foldl_cons]
    by_cases h : e.Name = s
    · rw [if_pos h, ih]
      simp [h]
    · rw [if_neg h, ih]
      have h2 : ¬ s = e.Name := fun h3 => h h3.symm
      simp [h, h2]

/-- The loop body of `ProcessWebConnections` in closed form. -/
theorem annotateConnectionString_eq (slotSettings : stringArrayFlag) (e : ConnectionString) :
    annotateConnectionString slotSettings e =
      { e with ProviderName := "SQLServer",
               SlotSetting := e.SlotSetting || decide (e.Name ∈ slotSettings) } := by
  unfold annotateConnectionString
  rw [annotateConnectionString_fold]

/-! ## The loader: what a successful load looks like -/

theorem foldl_appSettingsChild_unmarked (children : List XmlNode) (v : AppSettings)
    (hv : unmarkedApp v) : unmarkedApp (children.foldl xml.appSettingsChild v) := by
  induction children generalizing v with
  | nil => simpa using hv
  | cons c rest ih =>
    rw [List.foldl_cons]
    apply ih
    cases c with
    | charData t => exact hv
    | element name attrs ch =>
      simp only [xml.appSettingsChild]
      split
      · intro e he
        simp only [List.mem_append, List.mem_singleton] at he
        rcases he with he | he
        · exact hv e he
        · rw [he]; rfl
      · exact hv

/-- Filling an `appSettings` section marks no entry. -/
theorem fillAppSettings_unmarked (v : AppSettings) (attrs : List XmlAttr)
    (children : List XmlNode) (hv : unmarkedApp v) :
    unmarkedApp (xml.fillAppSettings v attrs children) :=
  foldl_appSettingsChild_unmarked children _ hv

/-- Reading the children of an `add` element leaves the flag alone. -/
theorem foldl_connectionStringChild_slotSetting (children : List XmlNode)
    (v : ConnectionString) :
    (children.foldl xml.connectionStringChild v).SlotSetting = v.SlotSetting := by
  induction children generalizing v with
  | nil => rfl
  | cons c rest ih =>
    rw [List.foldl_cons, ih]
    cases c with
    | charData t => rfl
    | element name attrs ch =>
      simp only [xml.connectionStringChild]
      split <;> rfl

/-- Reading the children of a `connectionStrings` element marks no entry. -/
theorem foldl_connectionStringsChild_unmarked (children : List XmlNode)
    (v : ConnectionStrings) (hv : unmarkedConn v) :
    unmarkedConn (children.foldl xml.connectionStringsChild v) := by
  induction children generalizing v with
  | nil => simpa using hv
  | cons c rest ih =>
    rw [List.foldl_cons]
    apply ih
    cases c with
    | charData t => exact hv
    | element name attrs ch =>
      simp only [xml.connectionStringsChild]
      split
      · intro e he
        simp only [List.mem_append, List.mem_singleton] at he
        rcases he with he | he
        · exact hv e he
        · rw [he, xml.fillConnectionString, foldl_connectionStringChild_slotSetting]
      · exact hv

/-- Filling a `connectionStrings` section marks no entry. -/
theorem fillConnectionStrings_unmarked (v : ConnectionStrings) (attrs : List XmlAttr)
    (children : List XmlNode) (hv : unmarkedConn v) :
    unmarkedConn (xml.fillConnectionStrings v attrs children) :=
  foldl_connectionStringsChild_unmarked children _ hv

/-- Reading the children of the root element marks no entry. -/
theorem foldl_configurationChild_unmarked (children : List XmlNode) (v : Configuration)
    (hv : unmarkedApp v.AppSettings ∧ unmarkedConn v.ConnectionStrings) :
    unmarkedApp (children.foldl xml.configurationChild v).AppSettings ∧
      unmarkedConn (children.foldl xml.configurationChild v).ConnectionStrings := by
  induction children generalizing v with
  | nil => simpa using hv
  | cons c rest ih =>
    rw [List.foldl_cons]
    apply ih
    cases c with
    | charData t => exact hv
    | element name attrs ch =>
      simp only [xml.configurationChild]
      split
      · exact ⟨fillAppSettings_unmarked _ _ _ hv.1, hv.2⟩
      · split
        · exact ⟨hv.1, fillConnectionStrings_unmarked _ _ _ hv.2⟩
        · exact hv

/-- The first parse marks no entry. -/
theorem UnmarshalConfiguration_unmarked (decode : String → Option XmlNode) (data : String)
    (c : Configuration)
    (h : xml.UnmarshalConfiguration decode data Configuration.zero = .ok c) :
    unmarkedApp c.AppSettings ∧ unmarkedConn c.ConnectionStrings := by
  unfold xml.UnmarshalConfiguration at h
  split at h
  · split at h
    · injection h with h
      rw [← h]
      apply foldl_configurationChild_unmarked
      constructor <;> intro e he <;> simp [Configuration.zero] at he
    · simp at h
  · simp at h

/-- The parse of an external `appSettings` file marks no entry. -/
theorem UnmarshalAppSettings_unmarked (decode : String → Option XmlNode) (data : String)
    (v s : AppSettings) (hv : unmarkedApp v)
    (h : xml.UnmarshalAppSettings decode data v = .ok s) : unmarkedApp s := by
  unfold xml.UnmarshalAppSettings at h
  split at h
  · split at h
    · injection h with h
      rw [← h]
      exact fillAppSettings_unmarked _ _ _ hv
    · simp at h
  · simp at h

/-- The parse of an external `connectionStrings` file marks no entry. -/
theorem UnmarshalConnectionStrings_unmarked (decode : String → Option XmlNode)
    (data : String) (v s : ConnectionStrings) (hv : unmarkedConn v)
    (h : xml.UnmarshalConnectionStrings decode data v = .ok s) : unmarkedConn s := by
  unfold xml.UnmarshalConnectionStrings at h
  split at h
  · split at h
    · injection h with h
      rw [← h]
      exact fillConnectionStrings_unmarked _ _ _ hv
    · simp at h
  · simp at h

/-- What a successful load consists of: the first parse, and for each section
either no `configSource` and the section of the first parse, or a
`configSource` and a second parse into that section. -/
theorem NewConfigurationFromFile_ok_inv (decode : String → Option XmlNode)
    (fileName : String) (w w1 : World) (c : Configuration)
    (h : NewConfigurationFromFile decode fileName w = .ret (.ok c) w1) :
    ∃ data c0, xml.UnmarshalConfiguration decode data Configuration.zero = .ok c0 ∧
      ((len c0.AppSettings.ConfigSource = 0 ∧ c.AppSettings = c0.AppSettings) ∨
        (0 < len c0.AppSettings.ConfigSource ∧
          ∃ d, xml.UnmarshalAppSettings decode d c0.AppSettings = .ok c.AppSettings)) ∧
      ((len c0.ConnectionStrings.ConfigSource = 0 ∧
          c.ConnectionStrings = c0.ConnectionStrings) ∨
        (0 < len c0.ConnectionStrings.ConfigSource ∧
          ∃ d, xml.UnmarshalConnectionStrings decode d c0.ConnectionStrings =
            .ok c.ConnectionStrings)) := by
  unfold NewConfigurationFromFile at h
  split at h
  · simp at h
  · split at h
    · simp at h
    · split at h
      · simp at h
      · rename_i c0 hc0
        refine ⟨_, c0, hc0, ?_⟩
        simp only at h
        split at h
        · simp at h
        · rename_i c1 w2 hstep
          have happ : c1.ConnectionStrings = c0.ConnectionStrings ∧
              ((len c0.AppSettings.ConfigSource = 0 ∧ c1.AppSettings = c0.AppSettings) ∨
                (0 < len c0.AppSettings.ConfigSource ∧
                  ∃ d, xml.UnmarshalAppSettings decode d c0.AppSettings =
                    .ok c1.AppSettings)) := by
            split at hstep
            · rename_i hpos
              repeat' split at hstep
              all_goals try (simp at hstep; done)
              simp only [Prod.mk.injEq, Except.ok.injEq] at hstep
              obtain ⟨hc1, _⟩ := hstep
              subst hc1
              exact ⟨rfl, Or.inr ⟨hpos, _, by assumption⟩⟩
            · rename_i hneg
              simp only [Prod.mk.injEq, Except.ok.injEq] at hstep
              obtain ⟨hc1, _⟩ := hstep
              subst hc1
              exact ⟨rfl, Or.inl ⟨by omega, rfl⟩⟩
          obtain ⟨hconn, happ⟩ := happ
          split at h
          · rename_i hpos
            repeat' split at h
            all_goals try (simp at h; done)
            simp only [Exec.ret.injEq, Except.ok.injEq] at h
            obtain ⟨hc, _⟩ := h
            subst hc
            refine ⟨happ, Or.inr ⟨hconn ▸ hpos, ?_⟩⟩
            rw [← hconn]
            exact ⟨_, by assumption⟩
          · rename_i hneg
            simp only [Exec.ret.injEq, Except.ok.injEq] at h
            obtain ⟨hc, _⟩ := h
            subst hc
            exact ⟨happ, Or.inl ⟨by rw [← hconn]; omega, hconn⟩⟩

/-- Every entry of a loaded configuration has `SlotSetting` false. -/
theorem NewConfigurationFromFile_unmarked (decode : String → Option XmlNode)
    (fileName : String) (w w1 : World) (c : Configuration)
    (h : NewConfigurationFromFile decode fileName w = .ret (.ok c) w1) :
    unmarkedApp c.AppSettings ∧ unmarkedConn c.ConnectionStrings := by
  obtain ⟨data, c0, hc0, happ, hconn⟩ := NewConfigurationFromFile_ok_inv decode fileName w w1 c h
  have h0 := UnmarshalConfiguration_unmarked decode data c0 hc0
  constructor
  · rcases happ with ⟨_, he⟩ | ⟨_, d, hd⟩
    · rw [he]; exact h0.1
    · exact UnmarshalAppSettings_unmarked decode d _ _ h0.1 hd
  · rcases hconn with ⟨_, he⟩ | ⟨_, d, hd⟩
    · rw [he]; exact h0.2
    · exact UnmarshalConnectionStrings_unmarked decode d _ _ h0.2 hd

/-! ## Claims about the annotation pass -/

/-- C1.  For every configuration the loader returns and every list of
slot-setting names, an entry that `ProcessAppSettings` hands to the
serializer has `SlotSetting` true exactly when its `Key` is equal to one of
the names, and an entry that `ProcessWebConnections` hands over has it true
exactly when its `Name` is; every other entry has it false. -/
theorem slotSetting_true_iff_named (decode : String → Option XmlNode) (fileName : String)
    (w w1 : World) (c : Configuration) (slotSettings : stringArrayFlag)
    (h : NewConfigurationFromFile decode fileName w = .ret (.ok c) w1) :
    (∀ e ∈ annotateAppSettings slotSettings c.AppSettings.AppSettings,
        (e.SlotSetting = true ↔ e.Key ∈ slotSettings) ∧
        (e.SlotSetting = false ↔ e.Key ∉ slotSettings)) ∧
    (∀ e ∈ annotateConnectionStrings slotSettings c.ConnectionStrings.ConnectionStrings,
        (e.SlotSetting = true ↔ e.Name ∈ slotSettings) ∧
        (e.SlotSetting = false ↔ e.Name ∉ slotSettings)) := by
  obtain ⟨happ, hconn⟩ := NewConfigurationFromFile_unmarked decode fileName w w1 c h
  constructor
  · intro e he
    simp only [annotateAppSettings, List.mem_map] at he
    obtain ⟨e0, he0, rfl⟩ := he
    rw [annotateAppSetting_eq]
    simp [happ e0 he0]
  · intro e he
    simp only [annotateConnectionStrings, List.mem_map] at he
    obtain ⟨e0, he0, rfl⟩ := he
    rw [annotateConnectionString_eq]
    simp [hconn e0 he0]

/-- Witness of C1: the example document of the specification, loaded from
`web.config`, with the slot-setting name `B`. -/
theorem slotSetting_true_iff_named_witness :
    NewConfigurationFromFile sampleDecode "web.config" sampleWorld =
        .ret (.ok
          { AppSettings :=
              { ConfigSource := "",
                AppSettings :=
                  [{ Key := "A", Value := "1", SlotSetting := false },
                   { Key := "B", Value := "2", SlotSetting := false }] },
            ConnectionStrings := { ConfigSource := "", ConnectionStrings := [] } })
          (sampleWorld.record (.opened "web.config")) ∧
      ∀ e ∈ annotateAppSettings ["B"]
          [{ Key := "A", Value := "1", SlotSetting := false },
           { Key := "B", Value := "2", SlotSetting := false }],
        (e.SlotSetting = true ↔ e.Key ∈ ["B"]) ∧ (e.SlotSetting = false ↔ e.Key ∉ ["B"]) :=
  ⟨rfl, (slotSetting_true_iff_named sampleDecode "web.config" sampleWorld _ _ ["B"] rfl).1⟩

/-- C3.  For every list of connection strings and every list of
slot-setting names, every entry that the pass of `ProcessWebConnections`
produces has `ProviderName` equal to `"SQLServer"`, whatever it was before
and whether or not its name is a slot-setting name. -/
theorem providerName_is_SQLServer (slotSettings : stringArrayFlag) (l : List ConnectionString)
    (e : ConnectionString) (he : e ∈ annotateConnectionStrings slotSettings l) :
    e.ProviderName = "SQLServer" := by
  simp only [annotateConnectionStrings, List.mem_map] at he
  obtain ⟨e0, _, rfl⟩ := he
  rw [annotateConnectionString_eq]

/-- Witness of C3: an entry with another provider and a name that is no
slot-setting name. -/
theorem providerName_is_SQLServer_witness :
    ({ Name := "Db", ConnectionString := "Server=x", ProviderName := "SQLServer",
       SlotSetting := false } : ConnectionString) ∈
        annotateConnectionStrings ["Other"]
          [{ Name := "Db", ConnectionString := "Server=x",
             ProviderName := "System.Data.SqlClient", SlotSetting := false }] ∧
      ({ Name := "Db", ConnectionString := "Server=x", ProviderName := "SQLServer",
         SlotSetting := false } : ConnectionString).ProviderName = "SQLServer" :=
  ⟨by decide, providerName_is_SQLServer ["Other"]
    [{ Name := "Db", ConnectionString := "Server=x",
       ProviderName := "System.Data.SqlClient", SlotSetting := false }] _ (by decide)⟩

/-- C4.  For every entry list and every list of slot-setting names, the list
that the annotation pass hands to the serializer has the length of the
parsed list, and the identifying fields and values read off in order are
those of the parsed list: key and value for app settings, name and
connection string for connection strings. -/
theorem annotation_keeps_entries (slotSettings : stringArrayFlag) (la : List AppSetting)
    (lc : List ConnectionString) :
    (annotateAppSettings slotSettings la).length = la.length ∧
    (annotateAppSettings slotSettings la).map (fun e => (e.Key, e.Value)) =
      la.map (fun e => (e.Key, e.Value)) ∧
    (annotateConnectionStrings slotSettings lc).length = lc.length ∧
    (annotateConnectionStrings slotSettings lc).map (fun e => (e.Name, e.ConnectionString)) =
      lc.map (fun e => (e.Name, e.ConnectionString)) := by
  refine ⟨by simp [annotateAppSettings], ?_, by simp [annotateConnectionStrings], ?_⟩
  · simp only [annotateAppSettings, List.map_map]
    apply List.map_congr_left
    intro e _
    simp [annotateAppSetting_eq]
  · simp only [annotateConnectionStrings, List.map_map]
    apply List.map_congr_left
    intro e _
    simp [annotateConnectionString_eq]

/-- C8.  For every entry list, whatever its flags, and every list of
slot-setting names, running the annotation pass a second time with the same
names changes nothing, for app settings and for connection strings with the
provider overwrite. -/
theorem annotation_idempotent (slotSettings : stringArrayFlag) (la : List AppSetting)
    (lc : List ConnectionString) :
    annotateAppSettings slotSettings (annotateAppSettings slotSettings la) =
      annotateAppSettings slotSettings la ∧
    annotateConnectionStrings slotSettings (annotateConnectionStrings slotSettings lc) =
      annotateConnectionStrings slotSettings lc := by
  constructor
  · simp only [annotateAppSettings, List.map_map]
    apply List.map_congr_left
    intro e _
    simp [annotateAppSetting_eq]
  · simp only [annotateConnectionStrings, List.map_map]
    apply List.map_congr_left
    intro e _
    simp [annotateConnectionString_eq]

/-- C9.  For every entry list and every list of slot-setting names, a name
that already occurs in the list and is appended once more by
`stringArrayFlag.Set` leaves the annotated list as it was without the
repetition. -/
theorem repeated_name_no_effect (slotSettings : stringArrayFlag) (name : String)
    (la : List AppSetting) (lc : List ConnectionString) (h : name ∈ slotSettings) :
    annotateAppSettings (stringArrayFlag.Set slotSettings name) la =
      annotateAppSettings slotSettings la ∧
    annotateConnectionStrings (stringArrayFlag.Set slotSettings name) lc =
      annotateConnectionStrings slotSettings lc := by
  constructor
  · simp only [annotateAppSettings]
    apply List.map_congr_left
    intro e _
    rw [annotateAppSetting_eq, annotateAppSetting_eq]
    by_cases hk : e.Key = name
    · simp [stringArrayFlag.Set, hk, h]
    · simp [stringArrayFlag.Set, hk]
  · simp only [annotateConnectionStrings]
    apply List.map_congr_left
    intro e _
    rw [annotateConnectionString_eq, annotateConnectionString_eq]
    by_cases hk : e.Name = name
    · simp [stringArrayFlag.Set, hk, h]
    · simp [stringArrayFlag.Set, hk]

/-- Witness of C9: the flag `-slotSetting B` given twice. -/
theorem repeated_name_no_effect_witness :
    "B" ∈ ["B"] ∧
      annotateAppSettings (stringArrayFlag.Set ["B"] "B")
          [{ Key := "A", Value := "1", SlotSetting := false },
           { Key := "B", Value := "2", SlotSetting := false }] =
        annotateAppSettings ["B"]
          [{ Key := "A", Value := "1", SlotSetting := false },
           { Key := "B", Value := "2", SlotSetting := false }] :=
  ⟨by decide, (repeated_name_no_effect ["B"] "B" _ [] (by decide)).1⟩

/-! ## Claims about loading, serializing and the command line -/

theorem foldl_appSettingsChild_entries (children : List XmlNode) (v : AppSettings) :
    (children.foldl xml.appSettingsChild v).AppSettings =
      v.AppSettings ++ xml.addAppSettings children := by
  induction children generalizing v with
  | nil => simp [xml.addAppSettings]
  | cons c rest ih =>
    rw [List.foldl_cons, ih]
    cases c with
    | charData t => simp [xml.appSettingsChild, xml.addAppSettings]
    | element name attrs2 ch =>
      simp only [xml.appSettingsChild, xml.addAppSettings]
      split <;> simp

/-- The `add` children of an element extend the entries that the section
already holds: nothing is removed. -/
theorem fillAppSettings_entries (v : AppSettings) (attrs : List XmlAttr)
    (children : List XmlNode) :
    (xml.fillAppSettings v attrs children).AppSettings =
      v.AppSettings ++ xml.addAppSettings children := by
  rw [xml.fillAppSettings, foldl_appSettingsChild_entries]

/-- Reading the children of a `connectionStrings` element appends one entry
per `add` child. -/
theorem foldl_connectionStringsChild_entries (children : List XmlNode)
    (v : ConnectionStrings) :
    (children.foldl xml.connectionStringsChild v).ConnectionStrings =
      v.ConnectionStrings ++ xml.addConnectionStrings children := by
  induction children generalizing v with
  | nil => simp [xml.addConnectionStrings]
  | cons c rest ih =>
    rw [List.foldl_cons, ih]
    cases c with
    | charData t => simp [xml.connectionStringsChild, xml.addConnectionStrings]
    | element name attrs2 ch =>
      simp only [xml.connectionStringsChild, xml.addConnectionStrings]
      split <;> simp

/-- The same for `connectionStrings`. -/
theorem fillConnectionStrings_entries (v : ConnectionStrings) (attrs : List XmlAttr)
    (children : List XmlNode) :
    (xml.fillConnectionStrings v attrs children).ConnectionStrings =
      v.ConnectionStrings ++ xml.addConnectionStrings children := by
  rw [xml.fillConnectionStrings, foldl_connectionStringsChild_entries]

/-- A document with one `appSettings` element under the root is loaded as
the entries of the `add` children of that element, in document order. -/
theorem UnmarshalConfiguration_single_section (decode : String → Option XmlNode)
    (data : String) (rootAttrs attrs : List XmlAttr) (children : List XmlNode)
    (h : decode data =
      some (.element "configuration" rootAttrs [.element "appSettings" attrs children])) :
    ∃ c, xml.UnmarshalConfiguration decode data Configuration.zero = .ok c ∧
      c.AppSettings.AppSettings = xml.addAppSettings children := by
  refine ⟨_, by simp [xml.UnmarshalConfiguration, h]; rfl, ?_⟩
  simp [xml.configurationChild, fillAppSettings_entries, Configuration.zero]

/-- Unmarshalling a section file into a section that already holds entries
keeps them in front of the entries of the file. -/
theorem UnmarshalAppSettings_appends (decode : String → Option XmlNode) (data : String)
    (v : AppSettings) (attrs : List XmlAttr) (children : List XmlNode)
    (h : decode data = some (.element "appSettings" attrs children)) :
    ∃ s, xml.UnmarshalAppSettings decode data v = .ok s ∧
      s.AppSettings = v.AppSettings ++ xml.addAppSettings children := by
  refine ⟨xml.fillAppSettings v attrs children, ?_, fillAppSettings_entries v attrs children⟩
  simp [xml.UnmarshalAppSettings, h]

/-- C2, at a failing input.  The main file `sourced.config` names
`ext.config` as `configSource` and has the inline entry `X`; the external
file has the single entry `A`.  The loader returns the inline entry followed
by the entry of the external file, while the external file alone gives the
list with the entry `A` only. -/
theorem configSource_keeps_inline_entries :
    NewConfigurationFromFile sampleDecode "sourced.config" sampleWorld =
        .ret (.ok
          { AppSettings :=
              { ConfigSource := "ext.config",
                AppSettings :=
                  [{ Key := "X", Value := "0", SlotSetting := false },
                   { Key := "A", Value := "1", SlotSetting := false }] },
            ConnectionStrings := { ConfigSource := "", ConnectionStrings := [] } })
          ((sampleWorld.record (.opened "sourced.config")).record (.opened "ext.config")) ∧
      xml.UnmarshalAppSettings sampleDecode sampleExt { ConfigSource := "", AppSettings := [] } =
        .ok { ConfigSource := "",
              AppSettings := [{ Key := "A", Value := "1", SlotSetting := false }] } :=
  ⟨rfl, rfl⟩

/-- C5, as amended.  For every input file whose content the XML decoder
rejects, that is with a syntax error no later than the end tag of the root
element, `ProcessAppSettings` and `ProcessWebConnections` end the process
with exit code 1 after the single call that opened the input: the files are
as before, and no file was created or written. -/
theorem malformed_input_aborts (decode : String → Option XmlNode)
    (slotSettings : stringArrayFlag) (inputFileName outputFileName data : String) (w : World)
    (hfile : w.nodes.lookup inputFileName = some (.file data))
    (hbad : decode data = none) :
    ProcessAppSettings decode slotSettings inputFileName outputFileName w =
        .exit 1 { w with log := w.log ++ [.opened inputFileName] } ∧
    ProcessWebConnections decode slotSettings inputFileName outputFileName w =
        .exit 1 { w with log := w.log ++ [.opened inputFileName] } := by
  constructor
  · simp [ProcessAppSettings, NewConfigurationFromFile, os.Open, hfile, ioutil.ReadAll,
      xml.UnmarshalConfiguration, hbad, World.record]
  · simp [ProcessWebConnections, NewConfigurationFromFile, os.Open, hfile, ioutil.ReadAll,
      xml.UnmarshalConfiguration, hbad, World.record]

/-- Witness of C5: the file `broken.config` with an unclosed tag, and an
output path at which a file exists. -/
theorem malformed_input_aborts_witness :
    sampleWorld.nodes.lookup "broken.config" = some (.file sampleUnclosed) ∧
      sampleDecode sampleUnclosed = none ∧
      ProcessAppSettings sampleDecode ["B"] "broken.config" "out.json" sampleWorld =
        .exit 1 { sampleWorld with log := sampleWorld.log ++ [.opened "broken.config"] } :=
  ⟨rfl, rfl,
    (malformed_input_aborts sampleDecode ["B"] "broken.config" "out.json" sampleUnclosed
      sampleWorld rfl rfl).1⟩

/-- C5 as first stated fails.  The file `trailing.config` holds the example
document followed by the unclosed tag `<oops`, so it is not well formed; the
decoder stops at the end tag of the root element, `ProcessAppSettings` ends
with exit code 0 and the output file, which held `old`, is overwritten. -/
theorem trailing_text_is_accepted :
    xml.wellFormed sampleScan sampleTrailing = false ∧
    trailingWorld.nodes.lookup "trailing.config" = some (.file sampleTrailing) ∧
    trailingWorld.nodes.lookup "out.json" = some (.file "old") ∧
    (ProcessAppSettings (xml.firstElement sampleScan) ["B"] "trailing.config" "out.json"
        trailingWorld).exitCode = 0 ∧
    (ProcessAppSettings (xml.firstElement sampleScan) ["B"] "trailing.config" "out.json"
        trailingWorld).world.nodes.lookup "out.json" =
      some (.file
        "[\n  \x7b\n    \"name\": \"A\",\n    \"value\": \"1\",\n    \"slotSetting\": false\n  \x7d,\n  \x7b\n    \"name\": \"B\",\n    \"value\": \"2\",\n    \"slotSetting\": true\n  \x7d\n]") :=
  ⟨rfl, rfl, rfl, rfl, rfl⟩

/-- Once the configuration is loaded, `ProcessAppSettings` returns, whatever
`SerializeToJson` reports. -/
theorem ProcessAppSettings_returns (decode : String → Option XmlNode)
    (slotSettings : stringArrayFlag) (inputFileName outputFileName : String) (w w1 : World)
    (c : Configuration)
    (h : NewConfigurationFromFile decode inputFileName w = .ret (.ok c) w1) :
    (ProcessAppSettings decode slotSettings inputFileName outputFileName w).exitCode = 0 := by
  simp [ProcessAppSettings, h, Exec.exitCode]

/-- The same for `ProcessWebConnections`. -/
theorem ProcessWebConnections_returns (decode : String → Option XmlNode)
    (slotSettings : stringArrayFlag) (inputFileName outputFileName : String) (w w1 : World)
    (c : Configuration)
    (h : NewConfigurationFromFile decode inputFileName w = .ret (.ok c) w1) :
    (ProcessWebConnections decode slotSettings inputFileName outputFileName w).exitCode = 0 := by
  simp [ProcessWebConnections, h, Exec.exitCode]

/-- A failed write is not reported by `SerializeToJson`. -/
theorem SerializeToJson_write_error_lost {α : Type} (marshalIndent : α → Except GoError String)
    (data : α) (jsonBytes outputFileName : String) (w : World)
    (hm : marshalIndent data = .ok jsonBytes)
    (hc : (os.Create outputFileName w).1 = .ok ()) :
    (SerializeToJson marshalIndent data outputFileName w).1 = none := by
  unfold SerializeToJson
  rw [hm]
  simp only
  split
  · rename_i heq; rw [heq] at hc; simp at hc
  · rfl

/-- C6, at a failing input.  The output path `missing/out.json` cannot be
created: `SerializeToJson` returns the error of `os.Create`, and the
invocation still ends with exit code 0, from `ProcessAppSettings`, from
`ProcessWebConnections` and from `main`.  When the file can be created and
the write fails, `SerializeToJson` itself reports no error. -/
theorem serializer_error_ignored :
    (SerializeToJson json.MarshalIndentAppSettings
        [{ Key := "A", Value := "1", SlotSetting := false }] "missing/out.json" sampleWorld).1 =
      some (.createErr "missing/out.json") ∧
    (ProcessAppSettings sampleDecode [] "web.config" "missing/out.json" sampleWorld).exitCode = 0 ∧
    (ProcessWebConnections sampleDecode [] "conn.config" "missing/out.json"
        sampleWorld).exitCode = 0 ∧
    (main (flag.Parse 0) sampleDecode
        ["goxml2json", "appSettings", "-i", "web.config", "-o", "missing/out.json"]
        sampleWorld).exitCode = 0 ∧
    (SerializeToJson json.MarshalIndentAppSettings
        [{ Key := "A", Value := "1", SlotSetting := false }] "out.json"
        { sampleWorld with diskFull := true }).1 = none ∧
    (ProcessAppSettings sampleDecode [] "web.config" "out.json"
        { sampleWorld with diskFull := true }).exitCode = 0 :=
  ⟨rfl, rfl, rfl, rfl, rfl, rfl⟩

/-- The nil slice is written as `null`. -/
theorem MarshalIndent_nil :
    json.MarshalIndentAppSettings [] = .ok "null" ∧
      json.MarshalIndentConnectionStrings [] = .ok "null" :=
  ⟨rfl, rfl⟩

/-- A slice with entries is written as an array, one object per entry, in
order. -/
theorem MarshalIndent_cons (e : AppSetting) (l : List AppSetting) :
    json.MarshalIndentAppSettings (e :: l) =
      .ok ("[\n" ++ ",\n".intercalate ((e :: l).map json.objectAppSetting) ++ "\n]") := by
  simp [json.MarshalIndentAppSettings, json.indentArray]

/-- The text written for the example of the specification: entries `A/1`
and `B/2`, slot-setting name `B`. -/
theorem example_output :
    (ProcessAppSettings sampleDecode ["B"] "web.config" "out.json" sampleWorld).world.nodes.lookup
        "out.json" =
      some (.file
        "[\n  \x7b\n    \"name\": \"A\",\n    \"value\": \"1\",\n    \"slotSetting\": false\n  \x7d,\n  \x7b\n    \"name\": \"B\",\n    \"value\": \"2\",\n    \"slotSetting\": true\n  \x7d\n]") :=
  rfl

/-- C7, at a failing input.  The file `empty.config` has an `appSettings`
section with no `add` child: `ProcessAppSettings` ends with exit code 0 and
the text in the output file is `null`, which is no JSON array. -/
theorem empty_section_writes_null :
    (ProcessAppSettings sampleDecode ["B"] "empty.config" "out.json" sampleWorld).exitCode = 0 ∧
    (ProcessAppSettings sampleDecode ["B"] "empty.config" "out.json" sampleWorld).world.nodes.lookup
        "out.json" = some (.file "null") ∧
    (ProcessWebConnections sampleDecode ["B"] "empty.config" "out.json"
        sampleWorld).world.nodes.lookup "out.json" = some (.file "null") :=
  ⟨rfl, rfl, rfl⟩

/-! ## The log of file-system calls -/

/-- Every call of `os.Open` is recorded, whether it succeeds or not. -/
theorem os_Open_log (name : String) (w w1 : World) (r : Except GoError FsNode)
    (h : os.Open name w = (r, w1)) : w1.log = w.log ++ [.opened name] := by
  unfold os.Open at h
  split at h <;> (injection h with _ h2; rw [← h2]; rfl)

/-- The loader opens its input file first: the log of the resulting world
starts with the old log followed by that call. -/
theorem NewConfigurationFromFile_log (decode : String → Option XmlNode) (fileName : String)
    (w : World) :
    w.log ++ [.opened fileName] <+: (NewConfigurationFromFile decode fileName w).world.log := by
  unfold NewConfigurationFromFile
  split
  · rename_i h; simp [Exec.world, os_Open_log _ _ _ _ h]
  · rename_i w1 h
    have h1 := os_Open_log _ _ _ _ h
    rw [← h1]
    clear h h1
    split
    · simp [Exec.world]
    · split
      · simp [Exec.world]
      · rename_i c0 _
        simp only
        split
        · rename_i w2 hstep
          have h2 : w1.log <+: w2.log := by
            split at hstep
            · repeat' split at hstep
              all_goals
                simp only [Prod.mk.injEq] at hstep
                have ho := os_Open_log _ _ _ _ ‹os.Open _ _ = _›
                rw [← hstep.2, ho]
                exact List.prefix_append _ _
            · simp only [Prod.mk.injEq] at hstep
              rw [hstep.2]
          simpa [Exec.world] using h2
        · rename_i c1 w2 hstep
          have h2 : w1.log <+: w2.log := by
            split at hstep
            · repeat' split at hstep
              all_goals
                simp only [Prod.mk.injEq] at hstep
                have ho := os_Open_log _ _ _ _ ‹os.Open _ _ = _›
                rw [← hstep.2, ho]
                exact List.prefix_append _ _
            · simp only [Prod.mk.injEq] at hstep
              rw [hstep.2]
          refine h2.trans ?_
          clear h2 hstep
          repeat' split
          all_goals simp only [Exec.world]
          all_goals
            first
            | exact List.prefix_refl _
            | (have ho := os_Open_log _ _ _ _ ‹os.Open _ _ = _›
               rw [ho]
               exact List.prefix_append _ _)

/-- Every call of `os.Create` is recorded. -/
theorem os_Create_log (name : String) (w : World) :
    (os.Create name w).2.log = w.log ++ [.created name] := by
  unfold os.Create
  split <;> rfl

/-- Every write is recorded. -/
theorem bufio_WriteFlush_log (name data : String) (w : World) :
    (bufio.WriteFlush name data w).2.log = w.log ++ [.wrote name data] := by
  unfold bufio.WriteFlush
  split <;> rfl

/-- The serializer only adds to the log. -/
theorem SerializeToJson_log {α : Type} (marshalIndent : α → Except GoError String)
    (data : α) (outputFileName : String) (w : World) :
    w.log <+: (SerializeToJson marshalIndent data outputFileName w).2.log := by
  unfold SerializeToJson
  split
  · exact List.prefix_refl _
  · have hc := os_Create_log outputFileName w
    split
    · rename_i heq
      rw [heq] at hc
      simp only at hc
      simp only [hc]
      exact List.prefix_append _ _
    · rename_i jsonBytes _ _ _ w1 heq
      rw [heq] at hc
      simp only at hc
      simp only [bufio_WriteFlush_log, hc, List.append_assoc]
      exact List.prefix_append _ _

/-- Every run of `ProcessAppSettings` opens its input file: the world it leaves
is never the world it started in. -/
theorem ProcessAppSettings_log (decode : String → Option XmlNode)
    (slotSettings : stringArrayFlag) (inputFileName outputFileName : String) (w : World) :
    w.log ++ [.opened inputFileName] <+:
      (ProcessAppSettings decode slotSettings inputFileName outputFileName w).world.log := by
  have h := NewConfigurationFromFile_log decode inputFileName w
  unfold ProcessAppSettings
  split
  · rename_i heq; rw [heq] at h; exact h
  · rename_i heq; rw [heq] at h; exact h
  · rename_i heq; rw [heq] at h
    refine h.trans ?_
    simp only [Exec.world]
    exact SerializeToJson_log _ _ _ _

/-- Every run of `ProcessWebConnections` opens its input file. -/
theorem ProcessWebConnections_log (decode : String → Option XmlNode)
    (slotSettings : stringArrayFlag) (inputFileName outputFileName : String) (w : World) :
    w.log ++ [.opened inputFileName] <+:
      (ProcessWebConnections decode slotSettings inputFileName outputFileName w).world.log := by
  have h := NewConfigurationFromFile_log decode inputFileName w
  unfold ProcessWebConnections
  split
  · rename_i heq; rw [heq] at h; exact h
  · rename_i heq; rw [heq] at h; exact h
  · rename_i heq; rw [heq] at h
    refine h.trans ?_
    simp only [Exec.world]
    exact SerializeToJson_log _ _ _ _

/-- When the loop of `FlagSet.Parse` ends the process, the exit code is 2,
or it is the code for help and one of the arguments asks for help. -/
theorem parseLoop_error (helpExit : Nat) (fuel : Nat) (args : List String) (f : Flags)
    (code : Nat) (h : flag.parseLoop helpExit fuel args f = .error code) :
    code = 2 ∨ (code = helpExit ∧ ∃ a ∈ args, flag.isHelp a = true) := by
  induction fuel generalizing args f with
  | zero => simp [flag.parseLoop] at h
  | succ n ih =>
    cases args with
    | nil => simp [flag.parseLoop] at h
    | cons s rest =>
      have hmem : ∀ l : List String, (∀ a ∈ l, a ∈ s :: rest) → ∀ g,
          flag.parseLoop helpExit n l g = .error code →
          code = 2 ∨ (code = helpExit ∧ ∃ a ∈ s :: rest, flag.isHelp a = true) := by
        intro l hl g hg
        rcases ih l g hg with h2 | ⟨h3, a, ha, hh⟩
        · exact Or.inl h2
        · exact Or.inr ⟨h3, a, hl a ha, hh⟩
      unfold flag.parseLoop at h
      split at h
      · rename_i c more hs
        split at h
        · simp at h
        · rename_i hstop
          simp only at h
          have hflag : flag.flagName s =
              some (String.mk (flag.splitValue (if c = '-' then more else c :: more)).1) := by
            simp only [flag.flagName, hs, hstop, if_false]
          generalize (if c = '-' then more else c :: more) = name at h hflag
          split at h
          · simp at h; exact Or.inl h.symm
          · split at h
            · simp at h; exact Or.inl h.symm
            · split at h
              · split at h
                · rename_i hhelp
                  simp at h
                  refine Or.inr ⟨h.symm, s, List.mem_cons_self _ _, ?_⟩
                  simp only [flag.isHelp, hflag, Option.some.injEq]
                  simpa [or_comm] using hhelp
                · simp at h; exact Or.inl h.symm
              · split at h
                · split at h
                  · exact hmem _ (fun a ha => List.mem_cons_of_mem _ ha) _ h
                  · simp at h; exact Or.inl h.symm
                · split at h
                  · refine hmem _ (fun a ha => ?_) _ h
                    exact List.mem_cons_of_mem _ (List.mem_cons_of_mem _ ha)
                  · simp at h; exact Or.inl h.symm
                · simp at h; exact Or.inl h.symm
      · simp at h

/-- The same for `FlagSet.Parse`. -/
theorem Parse_error (helpExit : Nat) (arguments : List String) (code : Nat)
    (h : flag.Parse helpExit arguments = .error code) :
    code = 2 ∨ (code = helpExit ∧ ∃ a ∈ arguments, flag.isHelp a = true) :=
  parseLoop_error helpExit _ arguments _ code h

/-- C10, as amended.  For every argument vector: when the subcommand is
missing or is neither `appSettings` nor `connectionStrings`, `main` ends
with exit code 1; when the subcommand is one of the two and `FlagSet.Parse`
ends the process itself, `main` ends with the code that `Parse` chose; when
`Parse` returns and the name of the input or of the output file is empty,
`main` ends with exit code 2.  In all three cases the world is as before,
log of file-system calls included, so nothing was opened, created or
written.  The code that `FlagSet.Parse` chooses is 2, unless one of the
arguments asks for help, where it is the code for help. -/
theorem main_usage_errors (parse : List String → Except Nat Flags)
    (decode : String → Option XmlNode) (args : List String) (w : World) :
    ((args.length < 2 ∨
        (args[1]? ≠ some "appSettings" ∧ args[1]? ≠ some "connectionStrings")) →
      main parse decode args w = .exit 1 w) ∧
    (∀ code : Nat, (args[1]? = some "appSettings" ∨ args[1]? = some "connectionStrings") →
      parse (args.drop 2) = .error code →
      main parse decode args w = .exit code w) ∧
    (∀ f : Flags, (args[1]? = some "appSettings" ∨ args[1]? = some "connectionStrings") →
      parse (args.drop 2) = .ok f → (f.i = "" ∨ f.o = "") →
      main parse decode args w = .exit 2 w) ∧
    (∀ helpExit code : Nat, flag.Parse helpExit (args.drop 2) = .error code →
      code = 2 ∨ (code = helpExit ∧ ∃ a ∈ args.drop 2, flag.isHelp a = true)) := by
  refine ⟨?_, ?_, ?_, fun helpExit code h => Parse_error helpExit _ code h⟩
  · intro h
    unfold main
    split
    · rfl
    · rename_i hlen
      rcases h with h | ⟨h1, h2⟩
      · exact absurd h hlen
      · match args, h1, h2 with
        | [], _, _ => rfl
        | [_], _, _ => rfl
        | _ :: sub :: rest, h1, h2 =>
          simp only [List.getElem?_cons_succ, List.getElem?_cons_zero, ne_eq,
            Option.some.injEq] at h1 h2
          simp [h1, h2]
  · intro code hsub hparse
    unfold main
    match args, hsub, hparse with
    | [], hsub, _ => simp at hsub
    | [_], hsub, _ => simp at hsub
    | _ :: sub :: rest, hsub, hparse =>
      simp only [List.getElem?_cons_succ, List.getElem?_cons_zero, Option.some.injEq] at hsub
      simp only [List.drop_succ_cons, List.drop_zero] at hparse
      rcases hsub with hsub | hsub
      · simp [hsub, hparse]
      · simp [hsub, hparse]
  · intro f hsub hparse hempty
    unfold main
    match args, hsub, hparse with
    | [], hsub, _ => simp at hsub
    | [_], hsub, _ => simp at hsub
    | _ :: sub :: rest, hsub, hparse =>
      simp only [List.getElem?_cons_succ, List.getElem?_cons_zero, Option.some.injEq] at hsub
      simp only [List.drop_succ_cons, List.drop_zero] at hparse
      rcases hsub with hsub | hsub
      · simp [hsub, hparse, hempty]
      · simp [hsub, hparse, hempty]

/-- Witness of C10: no subcommand, an unknown subcommand, `appSettings` with
`-o` and no value (the flag package ends the process with code 2), and
`appSettings` without `-o`. -/
theorem main_usage_errors_witness :
    main (flag.Parse 0) sampleDecode ["goxml2json"] sampleWorld = .exit 1 sampleWorld ∧
    main (flag.Parse 0) sampleDecode ["goxml2json", "settings", "-i", "web.config"]
      sampleWorld = .exit 1 sampleWorld ∧
    main (flag.Parse 0) sampleDecode ["goxml2json", "appSettings", "-o"] sampleWorld =
      .exit 2 sampleWorld ∧
    main (flag.Parse 0) sampleDecode ["goxml2json", "appSettings", "-i", "web.config"]
      sampleWorld = .exit 2 sampleWorld :=
  ⟨(main_usage_errors (flag.Parse 0) sampleDecode ["goxml2json"] sampleWorld).1
      (Or.inl (by decide)),
    (main_usage_errors (flag.Parse 0) sampleDecode
      ["goxml2json", "settings", "-i", "web.config"] sampleWorld).1
      (Or.inr ⟨by decide, by decide⟩),
    (main_usage_errors (flag.Parse 0) sampleDecode ["goxml2json", "appSettings", "-o"]
      sampleWorld).2.1 2 (Or.inl rfl) rfl,
    (main_usage_errors (flag.Parse 0) sampleDecode
      ["goxml2json", "appSettings", "-i", "web.config"] sampleWorld).2.2.1
      { i := "web.config", o := "", slotSetting := [] } (Or.inl rfl) rfl (Or.inr rfl)⟩

/-- C10 as first stated fails.  With the arguments `appSettings -h` the
subcommand is recognised and neither `-i` nor `-o` is given, and `main` ends
with exit code 0, not 2: the flag package ends the process on a request for
help. -/
theorem main_help_exits_zero :
    (∀ a ∈ ["-h"], flag.flagName a ≠ some "i" ∧ flag.flagName a ≠ some "o") ∧
    main (flag.Parse 0) sampleDecode ["goxml2json", "appSettings", "-h"] sampleWorld =
      .exit 0 sampleWorld ∧
    (main (flag.Parse 0) sampleDecode ["goxml2json", "appSettings", "-h"]
      sampleWorld).exitCode ≠ 2 :=
  ⟨by decide, rfl, by decide⟩

end Goxml2json
